import Mathlib

/-!
Shallow embedding of the transaction-processor ledger (src/main.rs).

Monetary amounts (`f64` in the source) are modelled as `Rat`; the claims
under study involve only exactly-representable values and exact
comparisons, so no rounding behaviour is relevant.  The per-client
`LinkedHashMap<TxId, Transaction>` is modelled as an insertion-ordered
association list (`Log`), and the processor's `HashMap<ClientId, Client>`
as an association list updated in place (`Clients`).  CSV decoding is an
external collaborator; `read_transactions` is modelled on the stream of
successfully deserialized records, where a blank `amount` field
deserializes to `none` (serde's `Option<f64>`).
-/

abbrev ClientId := Nat
abbrev TxId := Nat

/-- One deserialized CSV record: `type, client, tx, amount` (the serde-skipped
`disputed` / `chargeback` fields always deserialize to `false`). -/
structure Record where
  type : String
  client : ClientId
  tx : TxId
  amount : Option Rat
deriving DecidableEq

/-- A stored transaction, as held in a client's log: the record data plus the
mutable `disputed` / `chargeback` flags. -/
structure Transaction where
  type : String
  client : ClientId
  tx : TxId
  amount : Option Rat
  disputed : Bool
  chargeback : Bool
deriving DecidableEq

/-- The transaction a deserialized record stores on insertion: its own fields,
with the serde-skipped flags at their `false` defaults. -/
def Record.toTransaction (r : Record) : Transaction :=
  ⟨r.type, r.client, r.tx, r.amount, false, false⟩

/-- Model of `str::to_lowercase` (ASCII-faithful; the dispatch strings are
ASCII). -/
def lc (s : String) : String := String.mk (s.data.map Char.toLower)

/-- Account snapshot: `available`, `held`, `locked` (struct `Account`). -/
structure Account where
  available : Rat
  held : Rat
  locked : Bool
deriving DecidableEq

/-- `Account::default()`: all-zero, unlocked. -/
def Account.zero : Account := ⟨0, 0, false⟩

/-- `Account::total`: `available + held`. -/
def Account.total (a : Account) : Rat := a.available + a.held

/-- A client's transaction log: insertion-ordered `TxId → Transaction`
mapping (`LinkedHashMap`), as an association list. -/
abbrev Log := List (TxId × Transaction)

/-- `LinkedHashMap::get` on the log. -/
def logGet (l : Log) (k : TxId) : Option Transaction :=
  (l.find? (fun p => p.1 == k)).map Prod.snd

/-- `LinkedHashMap::insert`: a fresh key is attached at the back of the
iteration order; an existing key has its node detached and re-attached
("update LRU position"), so the replacement also ends up at the back. -/
def logInsert (l : Log) (k : TxId) (t : Transaction) : Log :=
  (l.filter (fun p => p.1 != k)) ++ [(k, t)]

/-- `LinkedHashMap::get_mut` followed by a field update: apply `f` to the
entry with key `k`, leave everything else (including order) unchanged. -/
def logModify (l : Log) (k : TxId) (f : Transaction → Transaction) : Log :=
  l.map (fun p => if p.1 == k then (p.1, f p.2) else p)

/-- Struct `Client`: id plus its transaction log. -/
structure Client where
  id : ClientId
  tx : Log
deriving DecidableEq

/-- The fold body of `Client::get_account`: Rust's `match` tries the guard
arms in order (`chargeback`, then `disputed`), then the literal arms. -/
def foldStep (account : Account) (t : Transaction) : Account :=
  let amount := t.amount.getD 0
  if account.locked then account
  else if t.chargeback then { account with locked := true }
  else if t.disputed then { account with held := account.held + amount }
  else if lc t.type = "deposit" then
    { account with available := account.available + amount }
  else if lc t.type = "withdrawal" then
    if account.available ≥ amount then
      { account with available := account.available - amount }
    else account
  else account

/-- `Client::get_account`: fold the log, in insertion order, from the default
account. -/
def Client.get_account (c : Client) : Account :=
  c.tx.foldl (fun a p => foldStep a p.2) Account.zero

/-- The processor's client store (`HashMap<ClientId, Client>`), as an
association list; iteration order is a determinization of the `HashMap`'s
unspecified order. -/
abbrev Clients := List (ClientId × Client)

/-- The per-record dispatch of `read_transactions`, acting on the record's
client, which `entry(..).or_insert_with(Client::new)` has already created. -/
def applyToClient (c : Client) (r : Record) : Client :=
  if lc r.type = "dispute" then
    { c with tx := logModify c.tx r.tx (fun t => { t with disputed := true }) }
  else if lc r.type = "resolve" then
    { c with tx := logModify c.tx r.tx (fun t => { t with disputed := false }) }
  else if lc r.type = "chargeback" then
    { c with tx := logModify c.tx r.tx (fun t => if t.disputed then { t with chargeback := true } else t) }
  else
    { c with tx := logInsert c.tx r.tx r.toTransaction }

/-- One step of the stream fold in `read_transactions`: look up (or create)
the record's client, then dispatch. -/
def processRecord : Clients → Record → Clients
  | [], r => [(r.client, applyToClient ⟨r.client, []⟩ r)]
  | p :: rest, r =>
    if p.1 == r.client then (p.1, applyToClient p.2 r) :: rest
    else p :: processRecord rest r

/-- `TransactionProcessor::read_transactions`: fold the record stream over an
empty client store. -/
def read_transactions (records : List Record) : Clients :=
  records.foldl processRecord []

/-- Client lookup; an absent client reads as a fresh `Client::new` (empty
log), matching `entry(..).or_insert_with`. -/
def clientsGet (cs : Clients) (cid : ClientId) : Client :=
  ((cs.find? (fun p => p.1 == cid)).map Prod.snd).getD ⟨cid, []⟩

/-- The transaction log a client id currently maps to (empty when the client
does not exist yet). -/
def clientLog (cs : Clients) (cid : ClientId) : Log :=
  (clientsGet cs cid).tx

/-- One row of `get_status`'s `format!("{},{},{},{},{}", ...)`; `fmt` stands
for the external `f64` `Display` rendering. -/
def statusLine (fmt : Rat → String) (c : Client) : String :=
  toString c.id ++ "," ++ fmt c.get_account.available ++ ","
    ++ fmt c.get_account.held ++ "," ++ fmt c.get_account.total ++ ","
    ++ (if c.get_account.locked then "true" else "false")

/-- `TransactionProcessor::get_status`: the literal header string from the
source, then one formatted row per known client, joined by newlines. -/
def get_status (fmt : Rat → String) (cs : Clients) : String :=
  "client,available,held,total\n"
    ++ String.intercalate "\n" (cs.map (fun p => statusLine fmt p.2))

/-! Helper lemmas. -/

@[simp] theorem lc_deposit : lc "deposit" = "deposit" := by decide

@[simp] theorem lc_withdrawal : lc "withdrawal" = "withdrawal" := by decide

@[simp] theorem lc_dispute : lc "dispute" = "dispute" := by decide

@[simp] theorem lc_resolve : lc "resolve" = "resolve" := by decide

@[simp] theorem lc_chargeback : lc "chargeback" = "chargeback" := by decide

/-- Once the accumulator is locked, the fold body is the identity. -/
theorem foldStep_of_locked {a : Account} (h : a.locked = true)
    (t : Transaction) : foldStep a t = a := by
  simp [foldStep, h]

/-- Folding any further transactions over a locked accumulator changes
nothing. -/
theorem foldl_foldStep_of_locked {a : Account} (h : a.locked = true) :
    ∀ l : Log, l.foldl (fun a p => foldStep a p.2) a = a := by
  intro l
  induction l with
  | nil => rfl
  | cons p rest ih => simp [foldStep_of_locked h, ih]

/-- Unfolding `logGet` one entry at a time. -/
theorem logGet_cons (p : TxId × Transaction) (rest : Log) (k : TxId) :
    logGet (p :: rest) k = if p.1 = k then some p.2 else logGet rest k := by
  by_cases h : p.1 = k
  · have hb : (p.1 == k) = true := by simp [h]
    simp [logGet, List.find?, hb, h]
  · have hb : (p.1 == k) = false := by simp [h]
    simp [logGet, List.find?, hb, h]

/-- Unfolding `clientsGet` one entry at a time. -/
theorem clientsGet_cons (p : ClientId × Client) (rest : Clients)
    (cid : ClientId) :
    clientsGet (p :: rest) cid = if p.1 = cid then p.2 else clientsGet rest cid := by
  by_cases h : p.1 = cid
  · have hb : (p.1 == cid) = true := by simp [h]
    simp [clientsGet, List.find?, hb, h]
  · have hb : (p.1 == cid) = false := by simp [h]
    simp [clientsGet, List.find?, hb, h]

/-- Unfolding `logModify` one entry at a time. -/
theorem logModify_cons (p : TxId × Transaction) (rest : Log) (k : TxId)
    (f : Transaction → Transaction) :
    logModify (p :: rest) k f =
      (if p.1 = k then (p.1, f p.2) else p) :: logModify rest k f := by
  by_cases h : p.1 = k <;> simp [logModify, h]

/-- Unfolding `processRecord` one client entry at a time. -/
theorem processRecord_cons (p : ClientId × Client) (rest : Clients)
    (r : Record) :
    processRecord (p :: rest) r =
      if p.1 = r.client then (p.1, applyToClient p.2 r) :: rest
      else p :: processRecord rest r := by
  by_cases h : p.1 = r.client
  · have hb : (p.1 == r.client) = true := by simp [h]
    simp [processRecord, hb, h]
  · have hb : (p.1 == r.client) = false := by simp [h]
    simp [processRecord, hb, h]

/-- `clientsGet` after `processRecord`: the record's client is dispatched on
(created first if absent), every other client is untouched. -/
theorem clientsGet_processRecord (cs : Clients) (r : Record) (cid : ClientId) :
    clientsGet (processRecord cs r) cid =
      if cid = r.client then applyToClient (clientsGet cs r.client) r
      else clientsGet cs cid := by
  induction cs with
  | nil =>
    by_cases h : cid = r.client
    · simp [processRecord, clientsGet_cons, clientsGet, h]
    · have h' : ¬ r.client = cid := fun hh => h hh.symm
      simp [processRecord, clientsGet_cons, clientsGet, h, h']
  | cons p rest ih =>
    rw [processRecord_cons]
    by_cases hp : p.1 = r.client
    · by_cases h : cid = r.client
      · simp [hp, h, clientsGet_cons]
      · have h' : ¬ r.client = cid := fun hh => h hh.symm
        simp [hp, h, h', clientsGet_cons]
    · by_cases hc : p.1 = cid
      · have h : ¬ cid = r.client := by rw [← hc]; exact hp
        simp [hp, hc, h, clientsGet_cons]
      · by_cases h : cid = r.client
        · subst h
          simp [hp, hc, clientsGet_cons, ih]
        · simp [hp, hc, h, clientsGet_cons, ih]

theorem clientLog_processRecord (cs : Clients) (r : Record) (cid : ClientId) :
    clientLog (processRecord cs r) cid =
      if cid = r.client then (applyToClient (clientsGet cs r.client) r).tx
      else clientLog cs cid := by
  simp only [clientLog, clientsGet_processRecord]
  by_cases h : cid = r.client <;> simp [h]

/-- Reading a modified entry: `logModify` maps the found value through `f`. -/
theorem logGet_logModify_self (l : Log) (k : TxId)
    (f : Transaction → Transaction) :
    logGet (logModify l k f) k = (logGet l k).map f := by
  induction l with
  | nil => rfl
  | cons p rest ih =>
    rw [logModify_cons]
    by_cases h : p.1 = k
    · simp [logGet_cons, h]
    · simp [logGet_cons, h, ih]

/-- `logModify` at one key does not change lookups at other keys. -/
theorem logGet_logModify_ne (l : Log) (k k' : TxId)
    (f : Transaction → Transaction) (hk : k' ≠ k) :
    logGet (logModify l k f) k' = logGet l k' := by
  induction l with
  | nil => rfl
  | cons p rest ih =>
    rw [logModify_cons]
    by_cases h : p.1 = k
    · have hpk : ¬ k = k' := fun hh => hk hh.symm
      simp [logGet_cons, h, hpk, ih]
    · by_cases h' : p.1 = k'
      · simp [logGet_cons, h, h', hk]
      · simp [logGet_cons, h, h', ih]

/-- `logModify` is the identity when `f` fixes every entry stored at `k`. -/
theorem logModify_eq_self (l : Log) (k : TxId) (f : Transaction → Transaction)
    (h : ∀ p ∈ l, p.1 = k → f p.2 = p.2) : logModify l k f = l := by
  induction l with
  | nil => rfl
  | cons p rest ih =>
    rw [logModify_cons]
    have hrest := ih fun q hq hqk => h q (by simp [hq]) hqk
    by_cases hp : p.1 = k
    · have hfix := h p (by simp) hp
      have hent : (if p.1 = k then (p.1, f p.2) else p) = p := by
        rw [if_pos hp, hfix]
      rw [hent, hrest]
    · rw [if_neg hp, hrest]

/-! Claim theorems. -/

/-- C6: for every record stream, i.e. in every reachable processor state, and
for every client, the Account evaluated from that client's log satisfies
`total = available + held`. -/
theorem C6_total_eq_available_add_held (records : List Record)
    (cid : ClientId) :
    (Client.get_account (clientsGet (read_transactions records) cid)).total
      = (Client.get_account (clientsGet (read_transactions records) cid)).available
        + (Client.get_account (clientsGet (read_transactions records) cid)).held :=
  rfl

/-- C7: once the fold over a prefix of a client's log has produced a locked
accumulator, the remaining transactions of the log (in insertion order) are
all skipped: evaluating the full log gives exactly the prefix's account, so
nothing later changes `available`, `held`, or `locked`. -/
theorem C7_locked_skips_rest (id : ClientId) (l1 l2 : Log)
    (h : (Client.get_account ⟨id, l1⟩).locked = true) :
    Client.get_account ⟨id, l1 ++ l2⟩ = Client.get_account ⟨id, l1⟩ := by
  unfold Client.get_account at h ⊢
  rw [List.foldl_append]
  exact foldl_foldStep_of_locked h l2

/-- C7 witness: a log whose first transaction is charged back locks the
account, and appending a further deposit leaves the account unchanged. -/
theorem C7_locked_skips_rest_witness :
    (Client.get_account ⟨1, [(1, ⟨"deposit", 1, 1, some 1, true, true⟩)]⟩).locked = true
    ∧ Client.get_account ⟨1, [(1, ⟨"deposit", 1, 1, some 1, true, true⟩),
          (2, ⟨"deposit", 1, 2, some 1, false, false⟩)]⟩
        = Client.get_account ⟨1, [(1, ⟨"deposit", 1, 1, some 1, true, true⟩)]⟩ :=
  ⟨rfl, C7_locked_skips_rest 1 [(1, ⟨"deposit", 1, 1, some 1, true, true⟩)]
    [(2, ⟨"deposit", 1, 2, some 1, false, false⟩)] rfl⟩

/-- C1 counterexample: for deposit(1,1,1.0), dispute(1,1), chargeback(1,1),
the evaluated held balance is 0, not 1.0 as the claim states (the source's
own test `chargeback_on_dispute_should_work` asserts held == 0.0). -/
theorem C1_counterexample :
    ¬ ((Client.get_account (clientsGet (read_transactions
        [⟨"deposit", 1, 1, some 1⟩, ⟨"dispute", 1, 1, none⟩,
          ⟨"chargeback", 1, 1, none⟩]) 1)).held = 1) := by
  have hstate : read_transactions
      [⟨"deposit", 1, 1, some 1⟩, ⟨"dispute", 1, 1, none⟩,
        ⟨"chargeback", 1, 1, none⟩]
      = [(1, ⟨1, [(1, ⟨"deposit", 1, 1, some 1, true, true⟩)]⟩)] := rfl
  rw [hstate]
  norm_num [clientsGet_cons, Client.get_account, foldStep, Account.zero]

/-- C1 amended: deposit(1,1,1.0), dispute(1,1), chargeback(1,1) yields
available = 0, held = 0, locked = true: in the evaluation fold the
`chargeback` guard takes precedence over the `disputed` guard, so the
charged-back transaction's amount is counted neither in `available` nor in
`held`, and total is 0. -/
theorem C1_amended :
    Client.get_account (clientsGet (read_transactions
        [⟨"deposit", 1, 1, some 1⟩, ⟨"dispute", 1, 1, none⟩,
          ⟨"chargeback", 1, 1, none⟩]) 1) = ⟨0, 0, true⟩
    ∧ (Client.get_account (clientsGet (read_transactions
        [⟨"deposit", 1, 1, some 1⟩, ⟨"dispute", 1, 1, none⟩,
          ⟨"chargeback", 1, 1, none⟩]) 1)).total = 0 := by
  have hstate : read_transactions
      [⟨"deposit", 1, 1, some 1⟩, ⟨"dispute", 1, 1, none⟩,
        ⟨"chargeback", 1, 1, none⟩]
      = [(1, ⟨1, [(1, ⟨"deposit", 1, 1, some 1, true, true⟩)]⟩)] := rfl
  rw [hstate]
  constructor
  · norm_num [clientsGet_cons, Client.get_account, foldStep, Account.zero]
  · norm_num [clientsGet_cons, Client.get_account, foldStep, Account.zero,
      Account.total]

/-- C5: for a log holding one deposit of amount `a`, a dispute record on that
deposit's id makes the evaluated snapshot count `a` in `held` instead of
`available`, and a subsequent resolve record on the same id reverses this:
`a` is counted in `available` again and `held` returns to its prior value 0. -/
theorem C5_dispute_resolve (cid : ClientId) (txid : TxId) (a : Rat) :
    Client.get_account (clientsGet (read_transactions
        [⟨"deposit", cid, txid, some a⟩, ⟨"dispute", cid, txid, none⟩]) cid)
      = ⟨0, a, false⟩
    ∧ Client.get_account (clientsGet (read_transactions
        [⟨"deposit", cid, txid, some a⟩, ⟨"dispute", cid, txid, none⟩,
          ⟨"resolve", cid, txid, none⟩]) cid)
      = ⟨a, 0, false⟩ := by
  constructor <;>
    simp [read_transactions, List.foldl, processRecord, processRecord_cons,
      applyToClient, logInsert, logModify_cons, logModify, clientsGet_cons,
      clientsGet, Client.get_account, foldStep, Account.zero,
      Record.toTransaction]

/-- C9: during evaluation, a non-disputed, non-charged-back withdrawal on an
unlocked accumulator subtracts its amount from `available` exactly when
`available ≥ amount`, and otherwise changes nothing; and the concrete run
deposit(1,1,1.0) then withdrawal(1,2,1.5) evaluates to available = 1. -/
theorem C9_withdrawal_guard (account : Account) (t : Transaction)
    (hw : lc t.type = "withdrawal") (hd : t.disputed = false)
    (hc : t.chargeback = false) (hl : account.locked = false) :
    foldStep account t =
      (if account.available ≥ t.amount.getD 0 then
        { account with available := account.available - t.amount.getD 0 }
      else account)
    ∧ (Client.get_account (clientsGet (read_transactions
        [⟨"deposit", 1, 1, some 1⟩, ⟨"withdrawal", 1, 2, some (3/2)⟩]) 1)).available
      = 1 := by
  constructor
  · have hnd : ¬ lc t.type = "deposit" := by rw [hw]; decide
    simp [foldStep, hl, hc, hd, hw, hnd]
  · have hstate : read_transactions
        [⟨"deposit", 1, 1, some 1⟩, ⟨"withdrawal", 1, 2, some (3/2)⟩]
        = [(1, ⟨1, [(1, ⟨"deposit", 1, 1, some 1, false, false⟩),
            (2, ⟨"withdrawal", 1, 2, some (3/2), false, false⟩)]⟩)] := rfl
    rw [hstate]
    norm_num [clientsGet_cons, Client.get_account, foldStep, Account.zero]
    decide

/-- C9 witness: a concrete unlocked account and plain withdrawal, where the
guard succeeds and the amount is subtracted. -/
theorem C9_withdrawal_guard_witness :
    lc "withdrawal" = "withdrawal"
    ∧ (foldStep ⟨5, 0, false⟩ ⟨"withdrawal", 1, 9, some 2, false, false⟩ =
        (if (5 : Rat) ≥ ((some (2 : Rat)).getD 0) then
          ⟨5 - (some (2 : Rat)).getD 0, 0, false⟩
        else ⟨5, 0, false⟩)
      ∧ (Client.get_account (clientsGet (read_transactions
          [⟨"deposit", 1, 1, some 1⟩, ⟨"withdrawal", 1, 2, some (3/2)⟩]) 1)).available
        = 1) :=
  ⟨by decide,
    C9_withdrawal_guard ⟨5, 0, false⟩ ⟨"withdrawal", 1, 9, some 2, false, false⟩
      (by decide) rfl rfl rfl⟩

/-! Dispatch-branch lemmas for `applyToClient`, and the remaining claims. -/

theorem applyToClient_dispute (c : Client) (r : Record)
    (h : lc r.type = "dispute") :
    (applyToClient c r).tx
      = logModify c.tx r.tx (fun t => { t with disputed := true }) := by
  simp [applyToClient, h]

theorem applyToClient_resolve (c : Client) (r : Record)
    (h : lc r.type = "resolve") :
    (applyToClient c r).tx
      = logModify c.tx r.tx (fun t => { t with disputed := false }) := by
  simp [applyToClient, h]

theorem applyToClient_chargeback (c : Client) (r : Record)
    (h : lc r.type = "chargeback") :
    (applyToClient c r).tx
      = logModify c.tx r.tx
          (fun t => if t.disputed then { t with chargeback := true } else t) := by
  simp [applyToClient, h]

theorem applyToClient_insert (c : Client) (r : Record)
    (h3 : lc r.type ≠ "dispute") (h4 : lc r.type ≠ "resolve")
    (h5 : lc r.type ≠ "chargeback") :
    (applyToClient c r).tx = logInsert c.tx r.tx r.toTransaction := by
  simp [applyToClient, h3, h4, h5]

/-- A `logModify` whose function preserves the `chargeback` flag cannot clear
it at any key. -/
theorem logGet_logModify_chargeback_kept (l : Log) (k k' : TxId)
    (f : Transaction → Transaction)
    (hf : ∀ t, t.chargeback = true → (f t).chargeback = true)
    (tx : Transaction) (hget : logGet l k' = some tx)
    (hcb : tx.chargeback = true) :
    ∃ tx', logGet (logModify l k f) k' = some tx' ∧ tx'.chargeback = true := by
  by_cases hk : k' = k
  · subst hk
    rw [logGet_logModify_self, hget]
    exact ⟨f tx, rfl, hf tx hcb⟩
  · rw [logGet_logModify_ne _ _ _ _ hk]
    exact ⟨tx, hget, hcb⟩

/-- C8: processing a chargeback record touches no other client's log; it sets
`chargeback := true` on the referenced transaction exactly when that
transaction exists and is currently disputed, is a no-op on the log when
every entry at that id is non-disputed (in particular when the id is
unknown), and any transaction carrying `chargeback = true` afterwards either
already carried it or was disputed at the moment the flag was set (and stays
disputed). -/
theorem C8_chargeback_requires_dispute (cs : Clients) (r : Record)
    (h : lc r.type = "chargeback") :
    (∀ cid : ClientId, cid ≠ r.client →
        clientLog (processRecord cs r) cid = clientLog cs cid)
    ∧ (∀ tx, logGet (clientLog cs r.client) r.tx = some tx →
        tx.disputed = true →
        logGet (clientLog (processRecord cs r) r.client) r.tx
          = some { tx with chargeback := true })
    ∧ ((∀ p ∈ clientLog cs r.client, p.1 = r.tx → p.2.disputed = false) →
        clientLog (processRecord cs r) r.client = clientLog cs r.client)
    ∧ (∀ k tx', logGet (clientLog (processRecord cs r) r.client) k = some tx' →
        tx'.chargeback = true →
        ∃ tx, logGet (clientLog cs r.client) k = some tx
          ∧ (tx.chargeback = true ∨ (tx.disputed = true ∧ tx'.disputed = true))) := by
  have hself : clientLog (processRecord cs r) r.client
      = logModify (clientLog cs r.client) r.tx
          (fun t => if t.disputed then { t with chargeback := true } else t) := by
    rw [clientLog_processRecord]
    simp [applyToClient_chargeback _ _ h, clientLog]
  refine ⟨?_, ?_, ?_, ?_⟩
  · intro cid hne
    rw [clientLog_processRecord, if_neg hne]
  · intro tx hget hdisp
    rw [hself, logGet_logModify_self, hget]
    simp [hdisp]
  · intro hall
    rw [hself]
    exact logModify_eq_self _ _ _ (fun p hp hpk => by simp [hall p hp hpk])
  · intro k tx' hget' hcb'
    rw [hself] at hget'
    by_cases hk : k = r.tx
    · subst hk
      rw [logGet_logModify_self] at hget'
      cases hl : logGet (clientLog cs r.client) r.tx with
      | none => rw [hl] at hget'; simp at hget'
      | some tx =>
        rw [hl] at hget'
        simp only [Option.map_some', Option.some.injEq] at hget'
        refine ⟨tx, rfl, ?_⟩
        by_cases hd : tx.disputed
        · right
          rw [← hget']
          simp [hd]
        · left
          rw [← hcb', ← hget']
          simp [hd]
    · rw [logGet_logModify_ne _ _ _ _ hk] at hget'
      exact ⟨tx', hget', Or.inl hcb'⟩

/-- C8 witness: one client whose transaction 1 is disputed, hit by a
chargeback record for that transaction. -/
theorem C8_chargeback_requires_dispute_witness :
    lc "chargeback" = "chargeback"
    ∧ ((∀ cid : ClientId, cid ≠ 1 →
          clientLog (processRecord
            [(1, ⟨1, [(1, ⟨"deposit", 1, 1, some 1, true, false⟩)]⟩)]
            ⟨"chargeback", 1, 1, none⟩) cid
            = clientLog [(1, ⟨1, [(1, ⟨"deposit", 1, 1, some 1, true, false⟩)]⟩)] cid)
      ∧ (∀ tx, logGet (clientLog
            [(1, ⟨1, [(1, ⟨"deposit", 1, 1, some 1, true, false⟩)]⟩)] 1) 1 = some tx →
          tx.disputed = true →
          logGet (clientLog (processRecord
            [(1, ⟨1, [(1, ⟨"deposit", 1, 1, some 1, true, false⟩)]⟩)]
            ⟨"chargeback", 1, 1, none⟩) 1) 1
            = some { tx with chargeback := true })
      ∧ ((∀ p ∈ clientLog
            [(1, ⟨1, [(1, ⟨"deposit", 1, 1, some 1, true, false⟩)]⟩)] 1,
            p.1 = 1 → p.2.disputed = false) →
          clientLog (processRecord
            [(1, ⟨1, [(1, ⟨"deposit", 1, 1, some 1, true, false⟩)]⟩)]
            ⟨"chargeback", 1, 1, none⟩) 1
            = clientLog [(1, ⟨1, [(1, ⟨"deposit", 1, 1, some 1, true, false⟩)]⟩)] 1)
      ∧ (∀ k tx', logGet (clientLog (processRecord
            [(1, ⟨1, [(1, ⟨"deposit", 1, 1, some 1, true, false⟩)]⟩)]
            ⟨"chargeback", 1, 1, none⟩) 1) k = some tx' →
          tx'.chargeback = true →
          ∃ tx, logGet (clientLog
            [(1, ⟨1, [(1, ⟨"deposit", 1, 1, some 1, true, false⟩)]⟩)] 1) k = some tx
            ∧ (tx.chargeback = true ∨ (tx.disputed = true ∧ tx'.disputed = true)))) :=
  ⟨by decide,
    C8_chargeback_requires_dispute
      [(1, ⟨1, [(1, ⟨"deposit", 1, 1, some 1, true, false⟩)]⟩)]
      ⟨"chargeback", 1, 1, none⟩ (by decide)⟩

/-- C10 counterexample: after deposit(1,1,1.0), dispute(1,1), chargeback(1,1)
the stored transaction carries `chargeback = true`, but a later deposit
record with the same transaction id replaces it wholesale, clearing the flag
— so a record CAN clear `charged_back`, and the account evaluates unlocked
afterwards. -/
theorem C10_counterexample :
    (logGet (clientLog (read_transactions
        [⟨"deposit", 1, 1, some 1⟩, ⟨"dispute", 1, 1, none⟩,
          ⟨"chargeback", 1, 1, none⟩]) 1) 1).map Transaction.chargeback
      = some true
    ∧ (logGet (clientLog (read_transactions
        [⟨"deposit", 1, 1, some 1⟩, ⟨"dispute", 1, 1, none⟩,
          ⟨"chargeback", 1, 1, none⟩, ⟨"deposit", 1, 1, some 2⟩]) 1) 1).map
          Transaction.chargeback
      = some false
    ∧ (Client.get_account (clientsGet (read_transactions
        [⟨"deposit", 1, 1, some 1⟩, ⟨"dispute", 1, 1, none⟩,
          ⟨"chargeback", 1, 1, none⟩, ⟨"deposit", 1, 1, some 2⟩]) 1)).locked
      = false :=
  ⟨rfl, rfl, rfl⟩

/-- C10 amended: the `charged_back` flag is sticky under the annotation
records — no dispute, resolve or chargeback record can clear it once set —
though a later deposit/withdrawal (or other catch-all-inserted) record with
the same transaction id replaces the stored transaction and thereby resets
it.  In particular, a resolve processed after an accepted chargeback sets
`disputed = false` but leaves `charged_back = true`, and the account still
evaluates to `locked = true`. -/
theorem C10_chargeback_sticky (cs : Clients) (r : Record) (cid : ClientId)
    (k : TxId) (tx : Transaction)
    (hty : lc r.type = "dispute" ∨ lc r.type = "resolve"
      ∨ lc r.type = "chargeback")
    (hget : logGet (clientLog cs cid) k = some tx)
    (hcb : tx.chargeback = true) :
    (∃ tx', logGet (clientLog (processRecord cs r) cid) k = some tx'
        ∧ tx'.chargeback = true)
    ∧ (logGet (clientLog (read_transactions
        [⟨"deposit", 1, 1, some 1⟩, ⟨"dispute", 1, 1, none⟩,
          ⟨"chargeback", 1, 1, none⟩, ⟨"resolve", 1, 1, none⟩]) 1) 1).map
          Transaction.disputed
      = some false
    ∧ (logGet (clientLog (read_transactions
        [⟨"deposit", 1, 1, some 1⟩, ⟨"dispute", 1, 1, none⟩,
          ⟨"chargeback", 1, 1, none⟩, ⟨"resolve", 1, 1, none⟩]) 1) 1).map
          Transaction.chargeback
      = some true
    ∧ (Client.get_account (clientsGet (read_transactions
        [⟨"deposit", 1, 1, some 1⟩, ⟨"dispute", 1, 1, none⟩,
          ⟨"chargeback", 1, 1, none⟩, ⟨"resolve", 1, 1, none⟩]) 1)).locked
      = true := by
  refine ⟨?_, rfl, rfl, rfl⟩
  have hlog := clientLog_processRecord cs r cid
  by_cases hcid : cid = r.client
  · rw [hcid] at hget
    rw [hlog, if_pos hcid]
    have hcg : (clientsGet cs r.client).tx = clientLog cs r.client := rfl
    rcases hty with hd | hd | hd
    · rw [applyToClient_dispute _ _ hd, hcg]
      exact logGet_logModify_chargeback_kept _ _ _ _ (fun t ht => ht) tx hget hcb
    · rw [applyToClient_resolve _ _ hd, hcg]
      exact logGet_logModify_chargeback_kept _ _ _ _ (fun t ht => ht) tx hget hcb
    · rw [applyToClient_chargeback _ _ hd, hcg]
      refine logGet_logModify_chargeback_kept _ _ _ _ ?_ tx hget hcb
      intro t ht
      by_cases htd : t.disputed <;> simp [htd, ht]
  · rw [hlog, if_neg hcid]
    exact ⟨tx, hget, hcb⟩

/-- C10 witness: a resolve record aimed at a charged-back transaction leaves
the flag set. -/
theorem C10_chargeback_sticky_witness :
    lc "resolve" = "resolve"
    ∧ logGet (clientLog
        [(1, ⟨1, [(1, ⟨"deposit", 1, 1, some 1, true, true⟩)]⟩)] 1) 1
      = some ⟨"deposit", 1, 1, some 1, true, true⟩
    ∧ ((∃ tx', logGet (clientLog (processRecord
          [(1, ⟨1, [(1, ⟨"deposit", 1, 1, some 1, true, true⟩)]⟩)]
          ⟨"resolve", 1, 1, none⟩) 1) 1 = some tx' ∧ tx'.chargeback = true)
      ∧ (logGet (clientLog (read_transactions
          [⟨"deposit", 1, 1, some 1⟩, ⟨"dispute", 1, 1, none⟩,
            ⟨"chargeback", 1, 1, none⟩, ⟨"resolve", 1, 1, none⟩]) 1) 1).map
            Transaction.disputed
        = some false
      ∧ (logGet (clientLog (read_transactions
          [⟨"deposit", 1, 1, some 1⟩, ⟨"dispute", 1, 1, none⟩,
            ⟨"chargeback", 1, 1, none⟩, ⟨"resolve", 1, 1, none⟩]) 1) 1).map
            Transaction.chargeback
        = some true
      ∧ (Client.get_account (clientsGet (read_transactions
          [⟨"deposit", 1, 1, some 1⟩, ⟨"dispute", 1, 1, none⟩,
            ⟨"chargeback", 1, 1, none⟩, ⟨"resolve", 1, 1, none⟩]) 1)).locked
        = true) :=
  ⟨by decide, rfl,
    C10_chargeback_sticky
      [(1, ⟨1, [(1, ⟨"deposit", 1, 1, some 1, true, true⟩)]⟩)]
      ⟨"resolve", 1, 1, none⟩ 1 1 ⟨"deposit", 1, 1, some 1, true, true⟩
      (Or.inr (Or.inl (by decide))) rfl rfl⟩

/-- C3 counterexample: a record of unknown type "foo" aimed at an existing
transaction id is NOT a no-op: it is inserted by the catch-all arm,
replacing the stored deposit, and the later account evaluation changes
(available drops from 1 to 0). -/
theorem C3_counterexample :
    ¬ (clientLog (processRecord (read_transactions [⟨"deposit", 1, 1, some 1⟩])
          ⟨"foo", 1, 1, none⟩) 1
        = clientLog (read_transactions [⟨"deposit", 1, 1, some 1⟩]) 1)
    ∧ (Client.get_account (clientsGet (read_transactions
        [⟨"deposit", 1, 1, some 1⟩, ⟨"foo", 1, 1, none⟩]) 1)).available = 0
    ∧ ¬ ((Client.get_account (clientsGet (read_transactions
        [⟨"deposit", 1, 1, some 1⟩]) 1)).available = 0) := by
  refine ⟨by decide, rfl, ?_⟩
  have hstate : read_transactions [⟨"deposit", 1, 1, some 1⟩]
      = [(1, ⟨1, [(1, ⟨"deposit", 1, 1, some 1, false, false⟩)]⟩)] := rfl
  rw [hstate]
  norm_num [clientsGet_cons, Client.get_account, foldStep, Account.zero]

/-- C3 amended: a record whose type is none of the five known kinds falls
into the same catch-all as deposits and withdrawals: it is inserted into its
client's log (creating the client on demand and replacing any transaction
with the same id, which is how it can affect later evaluations), while its
own evaluation branch never changes the accumulator. -/
theorem C3_unknown_type_inserted (cs : Clients) (r : Record)
    (h1 : lc r.type ≠ "deposit") (h2 : lc r.type ≠ "withdrawal")
    (h3 : lc r.type ≠ "dispute") (h4 : lc r.type ≠ "resolve")
    (h5 : lc r.type ≠ "chargeback") :
    clientLog (processRecord cs r) r.client
      = logInsert (clientLog cs r.client) r.tx r.toTransaction
    ∧ ∀ account : Account, foldStep account r.toTransaction = account := by
  constructor
  · rw [clientLog_processRecord, if_pos rfl, applyToClient_insert _ _ h3 h4 h5]
    rfl
  · intro account
    obtain ⟨av, hd, lk⟩ := account
    cases lk with
    | true => simp [foldStep]
    | false => simp [foldStep, Record.toTransaction, h1, h2]

/-- C3 witness: an unknown-type record on an empty store. -/
theorem C3_unknown_type_inserted_witness :
    lc "foo" ≠ "deposit"
    ∧ (clientLog (processRecord [] ⟨"foo", 7, 3, none⟩) 7
        = logInsert (clientLog [] 7) 3 (Record.toTransaction ⟨"foo", 7, 3, none⟩)
      ∧ ∀ account : Account,
          foldStep account (Record.toTransaction ⟨"foo", 7, 3, none⟩) = account) :=
  ⟨by decide,
    C3_unknown_type_inserted [] ⟨"foo", 7, 3, none⟩ (by decide) (by decide)
      (by decide) (by decide) (by decide)⟩

/-- C4 counterexample: a deposit record with a missing amount is NOT dropped:
it is inserted into the log (and, aimed at an existing id, replaces the
stored deposit, changing the evaluated balance). -/
theorem C4_counterexample :
    logGet (clientLog (read_transactions [⟨"deposit", 1, 1, none⟩]) 1) 1
      = some ⟨"deposit", 1, 1, none, false, false⟩
    ∧ ¬ ((Client.get_account (clientsGet (read_transactions
        [⟨"deposit", 1, 1, some 1⟩, ⟨"deposit", 1, 1, none⟩]) 1)).available
      = (Client.get_account (clientsGet (read_transactions
        [⟨"deposit", 1, 1, some 1⟩]) 1)).available) := by
  refine ⟨rfl, ?_⟩
  have hstate1 : read_transactions
      [⟨"deposit", 1, 1, some 1⟩, ⟨"deposit", 1, 1, none⟩]
      = [(1, ⟨1, [(1, ⟨"deposit", 1, 1, none, false, false⟩)]⟩)] := rfl
  have hstate2 : read_transactions [⟨"deposit", 1, 1, some 1⟩]
      = [(1, ⟨1, [(1, ⟨"deposit", 1, 1, some 1, false, false⟩)]⟩)] := rfl
  rw [hstate1, hstate2]
  norm_num [clientsGet_cons, Client.get_account, foldStep, Account.zero]

/-- C4 amended: a deposit or withdrawal record whose amount field is missing
is still inserted into the client's log (occupying — and possibly
overwriting — its transaction id); during evaluation its amount defaults to
0, so its own branch never changes the accumulator. -/
theorem C4_missing_amount_inserted (cs : Clients) (r : Record)
    (hk : lc r.type = "deposit" ∨ lc r.type = "withdrawal")
    (ha : r.amount = none) :
    clientLog (processRecord cs r) r.client
      = logInsert (clientLog cs r.client) r.tx r.toTransaction
    ∧ ∀ account : Account, foldStep account r.toTransaction = account := by
  have h3 : lc r.type ≠ "dispute" := by
    rcases hk with h | h <;> rw [h] <;> decide
  have h4 : lc r.type ≠ "resolve" := by
    rcases hk with h | h <;> rw [h] <;> decide
  have h5 : lc r.type ≠ "chargeback" := by
    rcases hk with h | h <;> rw [h] <;> decide
  constructor
  · rw [clientLog_processRecord, if_pos rfl, applyToClient_insert _ _ h3 h4 h5]
    rfl
  · intro account
    obtain ⟨av, hd, lk⟩ := account
    cases lk with
    | true => simp [foldStep]
    | false =>
      rcases hk with h | h
      · simp [foldStep, Record.toTransaction, h, ha]
      · have hnd : lc r.type ≠ "deposit" := by rw [h]; decide
        by_cases hge : av ≥ (0 : Rat)
        · simp [foldStep, Record.toTransaction, h, hnd, ha, hge]
        · simp [foldStep, Record.toTransaction, h, hnd, ha, hge]

/-- C4 witness: a deposit with a blank amount on an empty store. -/
theorem C4_missing_amount_inserted_witness :
    (lc "deposit" = "deposit" ∨ lc "deposit" = "withdrawal")
    ∧ (clientLog (processRecord [] ⟨"deposit", 1, 1, none⟩) 1
        = logInsert (clientLog [] 1) 1 (Record.toTransaction ⟨"deposit", 1, 1, none⟩)
      ∧ ∀ account : Account,
          foldStep account (Record.toTransaction ⟨"deposit", 1, 1, none⟩) = account) :=
  ⟨Or.inl (by decide),
    C4_missing_amount_inserted [] ⟨"deposit", 1, 1, none⟩ (Or.inl (by decide)) rfl⟩

/-- C2 counterexample: the header emitted by `get_status` is
`client,available,held,total` with no `locked` column, so the output does not
begin with the claimed header line `client,available,held,total,locked`
(the source's own test `it_should_print_properly` expects the four-name
header). -/
theorem C2_counterexample :
    get_status (fun _ => "0") (read_transactions [⟨"deposit", 1, 1, some 1⟩])
      = "client,available,held,total\n1,0,0,0,false"
    ∧ (("client,available,held,total,locked".data).isPrefixOf
        ((get_status (fun _ => "0")
          (read_transactions [⟨"deposit", 1, 1, some 1⟩])).data))
      = false := by
  exact ⟨by decide, by decide⟩

/-- C2 amended: the report output begins with the header line
`client,available,held,total` (the `locked` column name is absent from the
header), followed by one line per known client holding the client's id, its
evaluated available, held and total, and the literal string `true` or
`false` for locked. -/
theorem C2_report_shape (fmt : Rat → String) (cs : Clients) :
    get_status fmt cs
      = "client,available,held,total\n"
        ++ String.intercalate "\n" (cs.map (fun p =>
            toString p.2.id ++ "," ++ fmt p.2.get_account.available ++ ","
              ++ fmt p.2.get_account.held ++ "," ++ fmt p.2.get_account.total
              ++ "," ++ (if p.2.get_account.locked then "true" else "false"))) :=
  rfl
